import Mathlib

/-!
Shallow embedding of the `rpi-led-matrix` Rust crate (canvas/font/text layer
over the native RGB-LED driver) and verification of its specification.

Modelling conventions:
* machine integers (`i32`, `c_int`) become `Int`; `u8` channels become `Nat`;
* Rust strings become `List Char`; a `CString` conversion is the partial
  function `cstringNew`, failing exactly on a string containing a NUL byte;
* the native driver (out of scope for the crate, reached through `ffi::*`)
  is an opaque oracle: its drawing entry points are fields of `Driver`,
  its font metrics are passed in as the integers it would report;
* a Rust `panic!` is not a recoverable error: `DrawResult` keeps a separate
  `panicked` constructor, distinct from an ordinary return;
* `println!` output is recorded in the `prints` field of a normal return.
-/

/-- RGB colour triple with 8-bit channels (`LedColor` in the crate). -/
structure LedColor where
  red : Nat
  green : Nat
  blue : Nat
  deriving DecidableEq

/-- Layout options for rendering text on the canvas (`TextLayout`). -/
inductive TextLayout where
  | Horizontal : TextLayout
  | Vertical : TextLayout
  | Wrapped (line_width : Int) : TextLayout
  deriving DecidableEq

/-- Options for rendering text on the canvas (`TextDrawOptions`).
The Rust struct borrows its colour; the embedding stores it by value. -/
structure TextDrawOptions where
  x : Int
  y : Int
  color : LedColor
  layout : TextLayout
  kerning_offset : Int
  leading : Int
  deriving DecidableEq

/-- `TextDrawOptions::new`: the default text-drawing configuration. -/
def TextDrawOptions.new : TextDrawOptions :=
  { x := 0
    y := 0
    color := { red := 255, green := 255, blue := 255 }
    layout := TextLayout.Horizontal
    kerning_offset := 0
    leading := 0 }

/-- `impl Default for TextDrawOptions`: delegates to `new`. -/
def TextDrawOptions.default : TextDrawOptions :=
  TextDrawOptions.new

/-- Builder setter `TextDrawOptions::position`: replaces `x` and `y`. -/
def TextDrawOptions.position (o : TextDrawOptions) (x y : Int) : TextDrawOptions :=
  { o with x := x, y := y }

/-- Builder setter `TextDrawOptions::color`: replaces the colour.
Named `setColor` here because `color` is taken by the field projection. -/
def TextDrawOptions.setColor (o : TextDrawOptions) (color : LedColor) : TextDrawOptions :=
  { o with color := color }

/-- Builder setter `TextDrawOptions::layout`: replaces the layout mode. -/
def TextDrawOptions.setLayout (o : TextDrawOptions) (layout : TextLayout) : TextDrawOptions :=
  { o with layout := layout }

/-- Builder setter `TextDrawOptions::kerning_offset`. -/
def TextDrawOptions.setKerningOffset (o : TextDrawOptions) (offset : Int) : TextDrawOptions :=
  { o with kerning_offset := offset }

/-- Builder setter `TextDrawOptions::leading`. -/
def TextDrawOptions.setLeading (o : TextDrawOptions) (leading : Int) : TextDrawOptions :=
  { o with leading := leading }

/-- `CString::new` on a Rust string: fails (returns `none`) exactly when the
string contains a NUL byte, otherwise succeeds with the same characters. -/
def cstringNew (s : List Char) : Option (List Char) :=
  if s.any (fun c => c.toNat == 0) then none else some s

/-- `LedFont::new` (`font.rs` lines 18-36). The `Path` argument is modelled by
the result of `bdf_file.to_str()` (`none` when the path is not valid UTF-8) and
the driver's `ffi::load_font` by an oracle returning `none` for a null handle.
Errors carry the crate's literal messages. -/
def LedFont.new (bdf_to_str : Option (List Char))
    (load_font : List Char → Option Nat) : Except String Nat :=
  match bdf_to_str with
  | none => Except.error "Couldn't convert path to str"
  | some s =>
    match cstringNew s with
    | none => Except.error "Failed to convert path to CString"
    | some cs =>
      match load_font cs with
      | none => Except.error "Couldn't load font"
      | some handle => Except.ok handle

/-- `LedFont::height` (`font.rs` lines 42-50): the argument is the integer the
driver's `ffi::height_font` reports; `-1` is the "not loaded" sentinel. -/
def LedFont.height (driverHeight : Int) : Except String Int :=
  if driverHeight = -1 then Except.error "Font is not loaded" else Except.ok driverHeight

/-- `LedFont::baseline` (`font.rs` lines 53-55): returns the integer the
driver's `ffi::baseline_font` reports, unchanged and infallibly. -/
def LedFont.baseline (driverBaseline : Int) : Int :=
  driverBaseline

/-- The opaque native driver: the three text entry points called by
`LedCanvas::draw_text`. Arguments mirror the `ffi` signatures: canvas handle,
font handle, x, y, (line width,) r, g, b, text, kerning offset (, leading). -/
structure Driver where
  draw_text : Nat → Nat → Int → Int → Nat → Nat → Nat → List Char → Int → Int
  vertical_draw_text : Nat → Nat → Int → Int → Nat → Nat → Nat → List Char → Int → Int
  draw_text_wrapped : Nat → Nat → Int → Int → Int → Nat → Nat → Nat → List Char → Int → Int → Int

/-- Outcome of a call to `LedCanvas::draw_text`: either a normal return
carrying the lines written to standard output and the returned advance, or a
process-level panic (which is not a recoverable error value). -/
inductive DrawResult where
  | ok (prints : List String) (advance : Int) : DrawResult
  | panicked (msg : String) : DrawResult
  deriving DecidableEq

/-- Lines a `draw_text` call printed to standard output (none if it panicked
before reaching a `println!`). -/
def DrawResult.printed : DrawResult → List String
  | DrawResult.ok prints _ => prints
  | DrawResult.panicked _ => []

/-- Whether the call panicked. -/
def DrawResult.isPanic : DrawResult → Bool
  | DrawResult.ok _ _ => false
  | DrawResult.panicked _ => true

/-- `LedCanvas::draw_text` (`canvas.rs` lines 137-174). The `CString`
conversion runs first; on failure the crate calls `.expect(...)`, a panic.
Otherwise the match on the layout prints the selected routine's name and
delegates to the corresponding driver entry point. The canvas-pixel effect
lives inside the opaque driver and is not part of this model. -/
def LedCanvas.draw_text (d : Driver) (canvas font : Nat) (text : List Char)
    (options : TextDrawOptions) : DrawResult :=
  match cstringNew text with
  | none => DrawResult.panicked "given string failed to convert into a CString"
  | some ctext =>
    match options.layout with
    | TextLayout.Horizontal =>
      DrawResult.ok ["draw_text"]
        (d.draw_text canvas font options.x options.y options.color.red
          options.color.green options.color.blue ctext options.kerning_offset)
    | TextLayout.Vertical =>
      DrawResult.ok ["vertical_draw_text"]
        (d.vertical_draw_text canvas font options.x options.y options.color.red
          options.color.green options.color.blue ctext options.kerning_offset)
    | TextLayout.Wrapped line_width =>
      DrawResult.ok ["draw_text_wrapped"]
        (d.draw_text_wrapped canvas font options.x options.y line_width
          options.color.red options.color.green options.color.blue ctext
          options.kerning_offset options.leading)

/-- The routine name the crate prints for each layout branch. -/
def layoutRoutineName : TextLayout → String
  | TextLayout.Horizontal => "draw_text"
  | TextLayout.Vertical => "vertical_draw_text"
  | TextLayout.Wrapped _ => "draw_text_wrapped"

/-- A driver oracle whose drawing routines all report advance 0; used to
evaluate the model at concrete inputs. -/
def driver0 : Driver :=
  { draw_text := fun _ _ _ _ _ _ _ _ _ => 0
    vertical_draw_text := fun _ _ _ _ _ _ _ _ _ => 0
    draw_text_wrapped := fun _ _ _ _ _ _ _ _ _ _ _ => 0 }

/-- A pixel buffer held by the driver: fixed geometry plus pixel contents. -/
structure Canvas where
  width : Int
  height : Int
  pixels : Int → Int → LedColor

/-- Modelled from the spec: the driver's `led_canvas_set_pixel` — `set(x, y,
color)` writes one pixel and "out-of-range coordinates are silently ignored by
the driver (no error signaled)". The driver's own bounds check is the only
one anywhere on this path; the native code is outside `src/`. -/
def led_canvas_set_pixel (c : Canvas) (x y : Int) (r g b : Nat) : Canvas :=
  if 0 ≤ x ∧ x < c.width ∧ 0 ≤ y ∧ y < c.height then
    { c with pixels := fun i j =>
        if i = x ∧ j = y then { red := r, green := g, blue := b } else c.pixels i j }
  else c

/-- `LedCanvas::set` (`canvas.rs` lines 69-80): forwards the coordinates and
colour channels to the driver unchanged — no bounds check, no error path, no
panic path in the wrapper. -/
def LedCanvas.set (c : Canvas) (x y : Int) (color : LedColor) : Canvas :=
  led_canvas_set_pixel c x y color.red color.green color.blue

/-- Modelled from the spec: the display session ("Matrix") "owns the
*currently displayed* canvas"; `LedMatrix` itself is not under `src/`, only
its callers and the `canvas_swap` test are. The state is the identity of the
live buffer. -/
structure MatrixState where
  live : Nat
  deriving DecidableEq

/-- Modelled from the spec: `swap(canvas)` — the "caller relinquishes
ownership of `canvas` to the session, which makes it the new live buffer",
and the session "returns to the caller the buffer that was live immediately
before the call". -/
def LedMatrix.swap (s : MatrixState) (canvas : Nat) : Nat × MatrixState :=
  (s.live, { live := canvas })

/-- `n` successive swaps starting from session state `s` with the caller
holding buffer `a`: at each step the caller hands over its buffer and
receives the one that was live. Returns the final session state and the
buffer the caller ends up holding. -/
def swapN : Nat → MatrixState × Nat → MatrixState × Nat
  | 0, p => p
  | n + 1, (s, a) =>
    let r := LedMatrix.swap s a
    swapN n (r.2, r.1)

/-!
Wrapped text layout. `ffi::draw_text_wrapped` lives in the native library of
this repository, outside `src/`; the algorithm below is modelled from the
spec: "the text is split into words (maximal runs of non-space characters);
the algorithm must choose line-break points among word boundaries such that
no line's rendered pixel width exceeds `line_width`, while minimizing
raggedness — defined as the sum over all lines except the last of the squared
slack"; "a single word whose width exceeds `line_width` is placed on its own
line unbroken". Words are abstracted to their pixel widths (`Nat`), with `sp`
the rendered width of one inter-word space.
-/

/-- Modelled from the spec: split a string into its words, the maximal runs
of non-space characters. -/
def splitWords : List Char → List (List Char)
  | [] => []
  | c :: cs =>
    if c = ' ' then splitWords cs
    else
      match cs with
      | [] => [[c]]
      | d :: _ =>
        if d = ' ' then [c] :: splitWords cs
        else
          match splitWords cs with
          | [] => [[c]]
          | w :: rest => (c :: w) :: rest

/-- Rendered pixel width of a word: the sum of its glyphs' advance widths,
given the font's per-glyph width oracle `gw`. -/
def wordWidth (gw : Char → Nat) (w : List Char) : Nat :=
  (w.map gw).sum

/-- Rendered pixel width of one line holding the words of widths `line`, with
one space of width `sp` between adjacent words. -/
def lineWidth (sp : Nat) (line : List Nat) : Nat :=
  line.sum + sp * (line.length - 1)

/-- One line is admissible when it fits in `L` pixels, or is a single word
(an oversized word stands alone on its own line, unbroken). -/
def feasibleLine (L sp : Nat) (line : List Nat) : Bool :=
  lineWidth sp line ≤ L || line.length == 1

/-- A candidate wrapping is admissible when every line is. -/
def feasibleWrap (L sp : Nat) (p : List (List Nat)) : Bool :=
  p.all (feasibleLine L sp)

/-- Raggedness of a wrapping: the sum over all lines except the last of the
squared slack (`L` minus the line's rendered width). -/
def raggedness (L sp : Nat) (p : List (List Nat)) : Int :=
  (p.dropLast.map (fun line => ((L : Int) - (lineWidth sp line : Int)) ^ 2)).sum

/-- All break-point choices: every partition of the word list into
consecutive nonempty lines. -/
def partitions : List Nat → List (List (List Nat))
  | [] => [[]]
  | w :: ws =>
    (partitions ws).flatMap fun p =>
      match p with
      | [] => [[[w]]]
      | l :: rest => [[w] :: l :: rest, (w :: l) :: rest]

/-- Modelled from the spec: the wrapped-layout line breaker — among all
word-boundary break sequences whose every line is admissible, one of minimal
raggedness (the `getD` default is unreachable: the all-singletons partition
is always admissible). -/
def wrapWords (L sp : Nat) (ws : List Nat) : List (List Nat) :=
  (((partitions ws).filter (feasibleWrap L sp)).argmin (raggedness L sp)).getD [ws]

/-- A concrete 64×32 all-black canvas, used to evaluate the model. -/
def canvas0 : Canvas :=
  { width := 64
    height := 32
    pixels := fun _ _ => { red := 0, green := 0, blue := 0 } }

/-!
Theorems. Each claim of the specification gets one theorem below (plus, where
needed, a closed witness instantiating its hypotheses, or a closed
counterexample refuting the claim as literally stated).
-/

/-- C9: `TextDrawOptions::new()` yields position (0, 0), colour
(255, 255, 255), layout `Horizontal`, kerning offset 0 and leading 0, and
`Default::default()` equals `new()`. -/
theorem textDrawOptions_new_defaults :
    TextDrawOptions.new.x = 0 ∧ TextDrawOptions.new.y = 0 ∧
    TextDrawOptions.new.color = { red := 255, green := 255, blue := 255 } ∧
    TextDrawOptions.new.layout = TextLayout.Horizontal ∧
    TextDrawOptions.new.kerning_offset = 0 ∧ TextDrawOptions.new.leading = 0 ∧
    TextDrawOptions.default = TextDrawOptions.new :=
  ⟨rfl, rfl, rfl, rfl, rfl, rfl, rfl⟩

/-- C7: each `TextDrawOptions` builder setter replaces exactly the field(s)
it names and leaves every other field of the receiver unchanged. -/
theorem textDrawOptions_setters_frame (o : TextDrawOptions) (x y : Int)
    (c : LedColor) (l : TextLayout) (k ld : Int) :
    ((o.position x y).x = x ∧ (o.position x y).y = y ∧
      (o.position x y).color = o.color ∧ (o.position x y).layout = o.layout ∧
      (o.position x y).kerning_offset = o.kerning_offset ∧
      (o.position x y).leading = o.leading) ∧
    ((o.setColor c).color = c ∧ (o.setColor c).x = o.x ∧ (o.setColor c).y = o.y ∧
      (o.setColor c).layout = o.layout ∧
      (o.setColor c).kerning_offset = o.kerning_offset ∧
      (o.setColor c).leading = o.leading) ∧
    ((o.setLayout l).layout = l ∧ (o.setLayout l).x = o.x ∧ (o.setLayout l).y = o.y ∧
      (o.setLayout l).color = o.color ∧
      (o.setLayout l).kerning_offset = o.kerning_offset ∧
      (o.setLayout l).leading = o.leading) ∧
    ((o.setKerningOffset k).kerning_offset = k ∧ (o.setKerningOffset k).x = o.x ∧
      (o.setKerningOffset k).y = o.y ∧ (o.setKerningOffset k).color = o.color ∧
      (o.setKerningOffset k).layout = o.layout ∧
      (o.setKerningOffset k).leading = o.leading) ∧
    ((o.setLeading ld).leading = ld ∧ (o.setLeading ld).x = o.x ∧
      (o.setLeading ld).y = o.y ∧ (o.setLeading ld).color = o.color ∧
      (o.setLeading ld).layout = o.layout ∧
      (o.setLeading ld).kerning_offset = o.kerning_offset) :=
  ⟨⟨rfl, rfl, rfl, rfl, rfl, rfl⟩, ⟨rfl, rfl, rfl, rfl, rfl, rfl⟩,
    ⟨rfl, rfl, rfl, rfl, rfl, rfl⟩, ⟨rfl, rfl, rfl, rfl, rfl, rfl⟩,
    ⟨rfl, rfl, rfl, rfl, rfl, rfl⟩⟩

/-- C4: `LedFont::height` errors exactly on the driver's `-1` "not loaded"
sentinel; every other driver value is returned unchanged as `Ok`. -/
theorem ledFont_height_sentinel (h : Int) :
    (LedFont.height h = Except.error "Font is not loaded" ↔ h = -1) ∧
    (h ≠ -1 → LedFont.height h = Except.ok h) := by
  constructor
  · constructor
    · intro he
      by_contra hne
      simp [LedFont.height, hne] at he
    · intro he
      simp [LedFont.height, he]
  · intro hne
    simp [LedFont.height, hne]

/-- Closed witness for C4 at the sentinel and at an ordinary height. -/
theorem ledFont_height_sentinel_witness :
    LedFont.height (-1) = Except.error "Font is not loaded" ∧
    ((7 : Int) ≠ -1 ∧ LedFont.height 7 = Except.ok 7) :=
  ⟨(ledFont_height_sentinel (-1)).1.mpr rfl,
    by decide, (ledFont_height_sentinel 7).2 (by decide)⟩

/-- C8: `LedFont::baseline` performs no sentinel translation: every
driver-reported integer, including the `-1` that `LedFont::height` turns into
an error, is returned unchanged, and the function has no error outcome. -/
theorem ledFont_baseline_passthrough :
    (∀ b : Int, LedFont.baseline b = b) ∧
    LedFont.baseline (-1) = -1 ∧
    LedFont.height (-1) = Except.error "Font is not loaded" :=
  ⟨fun _ => rfl, rfl, by simp [LedFont.height]⟩

/-- C5: `LedFont::new` errors exactly when the path is not convertible to a
string, or the converted string contains a NUL byte, or the driver returns a
null handle; otherwise it returns `Ok` carrying the driver's non-null
handle. -/
theorem ledFont_new_characterization (p : Option (List Char))
    (lf : List Char → Option Nat) :
    ((∃ e, LedFont.new p lf = Except.error e) ↔
      (p = none ∨ ∃ s, p = some s ∧
        (s.any (fun c => c.toNat == 0) = true ∨ lf s = none))) ∧
    (∀ s hdl, p = some s → s.any (fun c => c.toNat == 0) = false →
      lf s = some hdl → LedFont.new p lf = Except.ok hdl) := by
  constructor
  · cases p with
    | none => simp [LedFont.new]
    | some s =>
      rcases hnul : s.any (fun c => c.toNat == 0) with _ | _
      · cases hlf : lf s with
        | none => simp [LedFont.new, cstringNew, hnul, hlf]
        | some hdl =>
          simp [LedFont.new, cstringNew, hnul, hlf]
          simpa using hnul
      · simp [LedFont.new, cstringNew, hnul]
        exact Or.inl (by simpa using hnul)
  · intro s hdl hp hnul hlf
    subst hp
    simp [LedFont.new, cstringNew, hnul, hlf]

/-- Closed witness for C5: a clean one-character path loads to the handle the
driver reports, and a path with a NUL byte errors. -/
theorem ledFont_new_characterization_witness :
    LedFont.new (some ['a']) (fun _ => some 5) = Except.ok 5 ∧
    (∃ e, LedFont.new (some [Char.ofNat 0]) (fun _ => some 5) = Except.error e) :=
  ⟨(ledFont_new_characterization (some ['a']) (fun _ => some 5)).2 ['a'] 5 rfl
      (by decide) rfl,
    (ledFont_new_characterization (some [Char.ofNat 0]) (fun _ => some 5)).1.mpr
      (Or.inr ⟨[Char.ofNat 0], rfl, Or.inl (by decide)⟩)⟩

/-- C6: `LedCanvas::set` adds no bounds check and has no error or panic path:
it forwards every coordinate pair to the driver, which silently ignores
out-of-range writes (the canvas is unchanged) and updates the pixel when in
range. -/
theorem ledCanvas_set_permissive (c : Canvas) (x y : Int) (color : LedColor) :
    (¬(0 ≤ x ∧ x < c.width ∧ 0 ≤ y ∧ y < c.height) →
      LedCanvas.set c x y color = c) ∧
    ((0 ≤ x ∧ x < c.width ∧ 0 ≤ y ∧ y < c.height) →
      (LedCanvas.set c x y color).pixels x y = color) := by
  constructor
  · intro hout
    simp [LedCanvas.set, led_canvas_set_pixel, hout]
  · intro hin
    simp [LedCanvas.set, led_canvas_set_pixel, hin]

/-- Closed witness for C6: writing at the out-of-range coordinate (-1, 0) on
a 64×32 canvas returns normally and leaves the canvas unchanged. -/
theorem ledCanvas_set_permissive_witness :
    ¬((0 : Int) ≤ -1 ∧ (-1 : Int) < canvas0.width ∧
        (0 : Int) ≤ 0 ∧ (0 : Int) < canvas0.height) ∧
    LedCanvas.set canvas0 (-1) 0 { red := 5, green := 6, blue := 7 } = canvas0 :=
  ⟨by decide,
    (ledCanvas_set_permissive canvas0 (-1) 0 { red := 5, green := 6, blue := 7 }).1
      (by decide)⟩

/-- Counterexample to C1 as stated: on the text "a\x00b", which contains an
interior NUL byte, `LedCanvas::draw_text` panics (the crate's documented
`.expect` behaviour) instead of signalling a recoverable error to the
caller — its return type `i32` has no error channel at all. -/
theorem draw_text_nul_counterexample :
    LedCanvas.draw_text driver0 0 0 ['a', Char.ofNat 0, 'b'] TextDrawOptions.new =
      DrawResult.panicked "given string failed to convert into a CString" := by
  decide

/-- C1 amended: for every text containing a NUL byte `draw_text` panics with
the crate's documented message, reaching no driver call; for every text free
of NUL bytes the `CString` conversion succeeds (preserving the characters)
and the call returns normally, with no panic. -/
theorem draw_text_nul_behaviour (d : Driver) (canvas font : Nat)
    (text : List Char) (options : TextDrawOptions) :
    (text.any (fun c => c.toNat == 0) = true →
      LedCanvas.draw_text d canvas font text options =
        DrawResult.panicked "given string failed to convert into a CString") ∧
    (text.any (fun c => c.toNat == 0) = false →
      cstringNew text = some text ∧
      (LedCanvas.draw_text d canvas font text options).isPanic = false) := by
  constructor
  · intro hnul
    simp [LedCanvas.draw_text, cstringNew, hnul]
  · intro hnul
    refine ⟨by simp [cstringNew, hnul], ?_⟩
    cases hl : options.layout <;>
      simp [LedCanvas.draw_text, cstringNew, hnul, hl, DrawResult.isPanic]

/-- Closed witness for C1 (amended): the text "x\x00" panics, and the text
"ok" converts and returns normally. -/
theorem draw_text_nul_behaviour_witness :
    (['x', Char.ofNat 0].any (fun c => c.toNat == 0) = true ∧
      LedCanvas.draw_text driver0 1 2 ['x', Char.ofNat 0] TextDrawOptions.new =
        DrawResult.panicked "given string failed to convert into a CString") ∧
    (['o', 'k'].any (fun c => c.toNat == 0) = false ∧
      cstringNew ['o', 'k'] = some ['o', 'k'] ∧
      (LedCanvas.draw_text driver0 1 2 ['o', 'k'] TextDrawOptions.new).isPanic = false) :=
  ⟨⟨by decide,
      (draw_text_nul_behaviour driver0 1 2 ['x', Char.ofNat 0]
        TextDrawOptions.new).1 (by decide)⟩,
    by decide,
    (draw_text_nul_behaviour driver0 1 2 ['o', 'k'] TextDrawOptions.new).2 (by decide)⟩

/-- Counterexample to C10 as stated: a call whose text is the single NUL byte
panics during the `CString` conversion, before reaching the `match` on the
layout, so nothing is printed — the routine name is not printed for *every*
input. -/
theorem draw_text_println_counterexample :
    (LedCanvas.draw_text driver0 0 0 [Char.ofNat 0]
        (TextDrawOptions.new.setLayout TextLayout.Vertical)).printed = [] := by
  decide

/-- C10 amended: every `draw_text` call whose text is free of NUL bytes
prints exactly the selected routine's name ("draw_text",
"vertical_draw_text" or "draw_text_wrapped" according to the layout) to
standard output; a call whose text contains a NUL byte panics before
printing anything. -/
theorem draw_text_println_routine (d : Driver) (canvas font : Nat)
    (text : List Char) (options : TextDrawOptions) :
    (text.any (fun c => c.toNat == 0) = false →
      (LedCanvas.draw_text d canvas font text options).printed =
        [layoutRoutineName options.layout]) ∧
    (text.any (fun c => c.toNat == 0) = true →
      (LedCanvas.draw_text d canvas font text options).printed = []) := by
  constructor
  · intro hnul
    cases hl : options.layout <;>
      simp [LedCanvas.draw_text, cstringNew, hnul, hl, DrawResult.printed,
        layoutRoutineName]
  · intro hnul
    simp [LedCanvas.draw_text, cstringNew, hnul, DrawResult.printed]

/-- Closed witness for C10 (amended): a wrapped-layout call on NUL-free text
prints exactly "draw_text_wrapped". -/
theorem draw_text_println_routine_witness :
    (['h', 'i'].any (fun c => c.toNat == 0) = false) ∧
    (LedCanvas.draw_text driver0 0 0 ['h', 'i']
        (TextDrawOptions.new.setLayout (TextLayout.Wrapped 32))).printed =
      ["draw_text_wrapped"] :=
  ⟨by decide,
    (draw_text_println_routine driver0 0 0 ['h', 'i']
      (TextDrawOptions.new.setLayout (TextLayout.Wrapped 32))).1 (by decide)⟩

/-- Every element of `partitions ws` concatenates back to `ws` and contains
no empty line. -/
theorem partitions_sound :
    ∀ (ws : List Nat) (p : List (List Nat)), p ∈ partitions ws →
      p.flatten = ws ∧ ∀ l ∈ p, l ≠ [] := by
  intro ws
  induction ws with
  | nil =>
    intro p hp
    simp only [partitions, List.mem_singleton] at hp
    subst hp
    exact ⟨rfl, by simp⟩
  | cons w ws ih =>
    intro p hp
    simp only [partitions, List.mem_flatMap] at hp
    obtain ⟨q, hq, hpq⟩ := hp
    obtain ⟨hflat, hne⟩ := ih q hq
    cases q with
    | nil =>
      simp only [List.mem_singleton] at hpq
      subst hpq
      simp only [List.flatten] at hflat
      constructor
      · simp [← hflat]
      · simp
    | cons l rest =>
      simp only [List.mem_cons, List.mem_singleton, List.not_mem_nil,
        or_false] at hpq
      rcases hpq with h | h
      · subst h
        refine ⟨?_, ?_⟩
        · show [w] ++ (l :: rest).flatten = w :: ws
          rw [hflat]
          rfl
        · intro x hx
          rcases List.mem_cons.mp hx with hx | hx
          · subst hx; simp
          · exact hne x hx
      · subst h
        refine ⟨?_, ?_⟩
        · show (w :: l) ++ rest.flatten = w :: ws
          have : l ++ rest.flatten = ws := hflat
          rw [List.cons_append, this]
        · intro x hx
          rcases List.mem_cons.mp hx with hx | hx
          · subst hx; simp
          · exact hne x (List.mem_cons_of_mem l hx)

/-- Starting a fresh line: `[w] :: p` is a partition of `w :: ws` whenever
`p` is a partition of `ws`. -/
theorem partitions_cons_newline {w : Nat} {ws : List Nat}
    {p : List (List Nat)} (hp : p ∈ partitions ws) :
    ([w] :: p) ∈ partitions (w :: ws) := by
  simp only [partitions, List.mem_flatMap]
  refine ⟨p, hp, ?_⟩
  cases p with
  | nil => simp
  | cons l rest => simp

/-- Extending the current line: `(w :: l) :: rest` is a partition of
`w :: ws` whenever `l :: rest` is a partition of `ws`. -/
theorem partitions_cons_extend {w : Nat} {ws : List Nat} {l : List Nat}
    {rest : List (List Nat)} (hp : (l :: rest) ∈ partitions ws) :
    ((w :: l) :: rest) ∈ partitions (w :: ws) := by
  simp only [partitions, List.mem_flatMap]
  exact ⟨l :: rest, hp, by simp⟩

/-- Prepending one nonempty line to a partition of `ws` yields a partition of
the line's words followed by `ws`. -/
theorem partitions_line_extend :
    ∀ (l : List Nat), l ≠ [] → ∀ {ws : List Nat} {p : List (List Nat)},
      p ∈ partitions ws → (l :: p) ∈ partitions (l ++ ws) := by
  intro l
  induction l with
  | nil => intro h; exact absurd rfl h
  | cons w lt ih =>
    intro _ ws p hp
    cases lt with
    | nil => exact partitions_cons_newline hp
    | cons v lt2 => exact partitions_cons_extend (ih (by simp) hp)

/-- Completeness: every list of nonempty lines is a partition of its own
flattening, i.e. `partitions` enumerates all break-point choices. -/
theorem partitions_complete :
    ∀ (p : List (List Nat)), (∀ l ∈ p, l ≠ []) → p ∈ partitions p.flatten := by
  intro p
  induction p with
  | nil => intro _; simp [partitions]
  | cons l rest ih =>
    intro h
    exact partitions_line_extend l (h l (by simp))
      (ih fun x hx => h x (List.mem_cons_of_mem l hx))

/-- The all-singletons wrapping is a partition of the word list. -/
theorem singletons_mem_partitions (ws : List Nat) :
    (ws.map fun w => [w]) ∈ partitions ws := by
  induction ws with
  | nil => simp [partitions]
  | cons w ws ih => exact partitions_cons_newline ih

/-- The all-singletons wrapping is always admissible (every line is a single
word). -/
theorem singletons_feasible (L sp : Nat) (ws : List Nat) :
    feasibleWrap L sp (ws.map fun w => [w]) = true := by
  rw [feasibleWrap, List.all_eq_true]
  intro x hx
  obtain ⟨w, _, rfl⟩ := List.mem_map.mp hx
  simp [feasibleLine]

/-- Bool-to-Prop reading of wrapping admissibility. -/
theorem feasibleWrap_iff (L sp : Nat) (p : List (List Nat)) :
    feasibleWrap L sp p = true ↔
      ∀ line ∈ p, lineWidth sp line ≤ L ∨ line.length = 1 := by
  simp [feasibleWrap, List.all_eq_true, feasibleLine]

/-- The computed wrapping is an admissible partition and its raggedness is
minimal among all admissible partitions. -/
theorem wrapWords_spec (L sp : Nat) (ws : List Nat) :
    wrapWords L sp ws ∈ (partitions ws).filter (feasibleWrap L sp) ∧
    ∀ q ∈ (partitions ws).filter (feasibleWrap L sp),
      raggedness L sp (wrapWords L sp ws) ≤ raggedness L sp q := by
  have hmem : (ws.map fun w => [w]) ∈
      (partitions ws).filter (feasibleWrap L sp) :=
    List.mem_filter.mpr ⟨singletons_mem_partitions ws, singletons_feasible L sp ws⟩
  have hne : (partitions ws).filter (feasibleWrap L sp) ≠ [] := by
    intro h
    rw [h] at hmem
    exact List.not_mem_nil _ hmem
  cases hargmin :
      ((partitions ws).filter (feasibleWrap L sp)).argmin (raggedness L sp) with
  | none => exact absurd (List.argmin_eq_none.mp hargmin) hne
  | some m =>
    have hm : m ∈
        ((partitions ws).filter (feasibleWrap L sp)).argmin (raggedness L sp) := by
      rw [hargmin]
      rfl
    have hwrap : wrapWords L sp ws = m := by
      rw [wrapWords, hargmin]
      rfl
    rw [hwrap]
    exact ⟨List.argmin_mem hm, fun q hq => List.le_of_mem_argmin hq hm⟩

/-- C2: the wrapped layout splits the text into words (maximal runs of
non-space characters, abstracted to their rendered widths), chooses line
breaks at word boundaries only (the produced lines concatenate back to the
word list), never exceeds `L` pixels on a line except for a single oversized
word standing alone, and its raggedness is minimal over *all* word-boundary
break sequences that satisfy the same admissibility condition. -/
theorem draw_text_wrapped_optimal (gw : Char → Nat) (text : List Char)
    (L sp : Nat) :
    (wrapWords L sp ((splitWords text).map (wordWidth gw))).flatten =
        (splitWords text).map (wordWidth gw) ∧
    (∀ line ∈ wrapWords L sp ((splitWords text).map (wordWidth gw)),
      lineWidth sp line ≤ L ∨ line.length = 1) ∧
    (∀ p : List (List Nat),
      p.flatten = (splitWords text).map (wordWidth gw) →
      (∀ l ∈ p, l ≠ []) →
      (∀ line ∈ p, lineWidth sp line ≤ L ∨ line.length = 1) →
      raggedness L sp (wrapWords L sp ((splitWords text).map (wordWidth gw))) ≤
        raggedness L sp p) := by
  obtain ⟨hmem, hopt⟩ := wrapWords_spec L sp ((splitWords text).map (wordWidth gw))
  obtain ⟨hpart, hfeas⟩ := List.mem_filter.mp hmem
  obtain ⟨hflat, _⟩ := partitions_sound _ _ hpart
  refine ⟨hflat, (feasibleWrap_iff L sp _).mp hfeas, ?_⟩
  intro p hpflat hpne hpfeas
  have hp : p ∈ partitions ((splitWords text).map (wordWidth gw)) := by
    have := partitions_complete p hpne
    rwa [hpflat] at this
  exact hopt p (List.mem_filter.mpr ⟨hp, (feasibleWrap_iff L sp p).mpr hpfeas⟩)

/-- Closed witness for C2: the text "to be or" under a 3-pixel-per-glyph
font gives word widths [6, 6, 6]; against the competitor that puts every
word on its own line, the computed wrapping at `line_width` 6 is no more
ragged. -/
theorem draw_text_wrapped_optimal_witness :
    (([[6], [6], [6]] : List (List Nat)).flatten =
        (splitWords ['t', 'o', ' ', 'b', 'e', ' ', 'o', 'r']).map
          (wordWidth fun _ => 3) ∧
      (∀ l ∈ ([[6], [6], [6]] : List (List Nat)), l ≠ []) ∧
      (∀ line ∈ ([[6], [6], [6]] : List (List Nat)),
        lineWidth 1 line ≤ 6 ∨ line.length = 1)) ∧
    raggedness 6 1
        (wrapWords 6 1
          ((splitWords ['t', 'o', ' ', 'b', 'e', ' ', 'o', 'r']).map
            (wordWidth fun _ => 3))) ≤
      raggedness 6 1 [[6], [6], [6]] :=
  ⟨⟨by decide, by decide, by decide⟩,
    (draw_text_wrapped_optimal (fun _ => 3)
        ['t', 'o', ' ', 'b', 'e', ' ', 'o', 'r'] 6 1).2.2
      [[6], [6], [6]] (by decide) (by decide) (by decide)⟩

/-- C3: `swap(A)` returns the live buffer B, a subsequent `swap(B)` returns
A with the original live buffer restored, and across any number of swaps the
pair of buffer identities held by the session and the caller is exactly the
original pair — only the live/off-screen labelling changes, no buffer is
duplicated or lost. -/
theorem matrix_swap_round_trip (s : MatrixState) (a : Nat) :
    (LedMatrix.swap s a).1 = s.live ∧
    LedMatrix.swap (LedMatrix.swap s a).2 (LedMatrix.swap s a).1 =
      (a, { live := s.live }) ∧
    (∀ n, swapN n (s, a) = (s, a) ∨
      swapN n (s, a) = ({ live := a }, s.live)) := by
  refine ⟨rfl, rfl, ?_⟩
  intro n
  induction n generalizing s a with
  | zero => exact Or.inl rfl
  | succ n ih =>
    have step : swapN (n + 1) (s, a) = swapN n ({ live := a }, s.live) := rfl
    rw [step]
    rcases ih { live := a } s.live with h | h
    · exact Or.inr h
    · exact Or.inl (by rw [h])
